import Mathlib

/-!
Verification of the geometric annotation model of the Map-Planner editor
(`src/components/MapEditor.tsx`).

Coordinates are modelled as exact rationals (the editor computes with IEEE
doubles); the legacy-area migration, which uses a Euclidean square root, is
modelled over the reals in a separate section.  Optional (possibly absent)
record fields of the TypeScript interfaces become `Option` fields; a
`Partial<T>` update object becomes a structure of `Option` fields where
`none` means "key absent from the update".
-/

namespace MapPlanner

/-- `Point` from `types.ts`, generic in the coordinate type. -/
structure Point (K : Type) where
  x : K
  y : K
deriving DecidableEq

/-- Natural size of the loaded image (`type ImageSize` in `MapEditor.tsx`). -/
structure ImageSize (K : Type) where
  width : K
  height : K
deriving DecidableEq

/-- Result record of `areaBoundsFromCircle`. -/
structure Bounds (K : Type) where
  topLeft : Point K
  bottomRight : Point K
deriving DecidableEq

/-- Result record of `circleFromBounds`. -/
structure Circle (K : Type) where
  center : Point K
  radius : K
deriving DecidableEq

/-- `Area` from `types.ts`. -/
structure Area (K : Type) where
  id : String
  name : String
  number : Option String := none
  center : Point K
  radius : K
  topLeft : Point K
  bottomRight : Point K
deriving DecidableEq

section Geometry

variable {K : Type} [LinearOrderedField K]

/-- `clamp(value, min, max) = Math.min(max, Math.max(min, value))`. -/
def clamp (value lo hi : K) : K := min hi (max lo value)

/-- Clamp a point to `[0, width] x [0, height]` when an image size is known;
this is the clamping step that `areaBoundsFromCircle` (and the bounds branch
of `updateArea`) applies to each corner. -/
def clampPoint (size : Option (ImageSize K)) (p : Point K) : Point K :=
  match size with
  | some sz => ⟨clamp p.x 0 sz.width, clamp p.y 0 sz.height⟩
  | none => p

/-- `areaBoundsFromCircle(center, radius, imageSize?)` from `MapEditor.tsx`:
corners at `center ± max(1, radius)`, each clamped to the image rectangle
when the image size is known. -/
def areaBoundsFromCircle (center : Point K) (radius : K)
    (imageSize : Option (ImageSize K)) : Bounds K :=
  let r := max 1 radius
  let topLeft : Point K := ⟨center.x - r, center.y - r⟩
  let bottomRight : Point K := ⟨center.x + r, center.y + r⟩
  ⟨clampPoint imageSize topLeft, clampPoint imageSize bottomRight⟩

/-- `circleFromBounds(topLeft, bottomRight)` from `MapEditor.tsx`:
center at the midpoint of the (orientation-normalised) box, radius the
larger half-dimension, floored at 1. -/
def circleFromBounds (topLeft bottomRight : Point K) : Circle K :=
  let left := min topLeft.x bottomRight.x
  let right := max topLeft.x bottomRight.x
  let top := min topLeft.y bottomRight.y
  let bottom := max topLeft.y bottomRight.y
  let center : Point K := ⟨(left + right) / 2, (top + bottom) / 2⟩
  let halfW := (right - left) / 2
  let halfH := (bottom - top) / 2
  let radius := max 1 (max halfW halfH)
  ⟨center, radius⟩

end Geometry

/-! ## The editor state and its mutation operations (rational coordinates) -/

/-- `MarkerStatus` from `types.ts`. -/
inductive MarkerStatus where
  | pending
  | completed
  | active
deriving DecidableEq

/-- `Tool` from `types.ts`. -/
inductive Tool where
  | select
  | marker
  | path
  | area
  | polygonArea
deriving DecidableEq

/-- `Marker` from `types.ts`. -/
structure Marker where
  id : String
  name : String
  number : Option String := none
  area : Option String := none
  position : Point ℚ
  status : MarkerStatus
  linkedMarkerIds : Option (List String) := none
  color : Option String := none
deriving DecidableEq

/-- The `linkedMarkers` record of `Path` from `types.ts`. -/
structure LinkedMarkers where
  startId : String
  endId : String
deriving DecidableEq

/-- `Path` from `types.ts`. -/
structure Path where
  id : String
  points : List (Point ℚ)
  linkedMarkers : Option LinkedMarkers := none
  color : Option String := none
deriving DecidableEq

/-- Tag of the `selectedElement` state (`'marker' | 'path' | 'area'`). -/
inductive ElementType where
  | marker
  | path
  | area
deriving DecidableEq

/-- The `selectedElement` record of `MapEditor.tsx`. -/
structure SelectedElement where
  type : ElementType
  id : String
deriving DecidableEq

/-- The `drawingArea` record of `MapEditor.tsx` (`{ id, center }`). -/
structure DrawingArea where
  id : String
  center : Point ℚ
deriving DecidableEq

/-- The `useState` fields of the `App` component in `MapEditor.tsx` that the
annotation model operates on (view-only state such as zoom or label sizes is
omitted). -/
structure EditorState where
  markers : List Marker
  paths : List Path
  areas : List (Area ℚ)
  activeTool : Tool
  selectedElement : Option SelectedElement := none
  linkingState : Option String := none
  drawingPathId : Option String := none
  drawingArea : Option DrawingArea := none
  imageSize : Option (ImageSize ℚ) := none
deriving DecidableEq

/-- `Partial<Marker>` (without `id`): `none` means the key is absent from the
update object.  For fields that are themselves optional in `Marker`, a
present key carries an `Option` value. -/
structure MarkerUpdate where
  name : Option String := none
  number : Option (Option String) := none
  area : Option (Option String) := none
  position : Option (Point ℚ) := none
  status : Option MarkerStatus := none
  linkedMarkerIds : Option (Option (List String)) := none
  color : Option (Option String) := none
deriving DecidableEq

/-- The spread `{ ...m, ...newMarkerData }`. -/
def mergeMarker (m : Marker) (u : MarkerUpdate) : Marker :=
  { m with
    name := u.name.getD m.name
    number := u.number.getD m.number
    area := u.area.getD m.area
    position := u.position.getD m.position
    status := u.status.getD m.status
    linkedMarkerIds := u.linkedMarkerIds.getD m.linkedMarkerIds
    color := u.color.getD m.color }

/-- `Partial<Path>` (without `id`). -/
structure PathUpdate where
  points : Option (List (Point ℚ)) := none
  linkedMarkers : Option (Option LinkedMarkers) := none
  color : Option (Option String) := none
deriving DecidableEq

/-- The spread `{ ...p, ...newPathData }`. -/
def mergePath (p : Path) (u : PathUpdate) : Path :=
  { p with
    points := u.points.getD p.points
    linkedMarkers := u.linkedMarkers.getD p.linkedMarkers
    color := u.color.getD p.color }

/-- `Partial<Area>` (without `id`). -/
structure AreaUpdate where
  name : Option String := none
  number : Option (Option String) := none
  center : Option (Point ℚ) := none
  radius : Option ℚ := none
  topLeft : Option (Point ℚ) := none
  bottomRight : Option (Point ℚ) := none
deriving DecidableEq

/-- The spread `{ ...a, ...newAreaData }`. -/
def mergeArea (a : Area ℚ) (u : AreaUpdate) : Area ℚ :=
  { a with
    name := u.name.getD a.name
    number := u.number.getD a.number
    center := u.center.getD a.center
    radius := u.radius.getD a.radius
    topLeft := u.topLeft.getD a.topLeft
    bottomRight := u.bottomRight.getD a.bottomRight }

/-- Endpoint re-synchronisation performed by `updateMarker` on each path when
the update carries a `position`: a path whose link starts at the moved marker
gets its first point replaced, else one whose link ends there gets its last
point replaced; other paths are returned unchanged. -/
def syncPathEndpoints (id : String) (newPos : Point ℚ) (p : Path) : Path :=
  match p.linkedMarkers with
  | some lm =>
    if lm.startId = id then { p with points := p.points.set 0 newPos }
    else if lm.endId = id then
      { p with points := p.points.set (p.points.length - 1) newPos }
    else p
  | none => p

/-- `updateMarker(id, newMarkerData)` from `MapEditor.tsx` (lines 1278-1297):
merge the update into the matching marker; when the update carries a
`position`, re-sync the endpoints of every linked path referencing `id`. -/
def updateMarker (id : String) (u : MarkerUpdate) (s : EditorState) : EditorState :=
  let s1 := { s with markers := s.markers.map fun m => if m.id = id then mergeMarker m u else m }
  match u.position with
  | some newPos => { s1 with paths := s1.paths.map (syncPathEndpoints id newPos) }
  | none => s1

/-- `updatePath(id, newPathData)` from `MapEditor.tsx` (lines 1299-1301). -/
def updatePath (id : String) (u : PathUpdate) (s : EditorState) : EditorState :=
  { s with paths := s.paths.map fun p => if p.id = id then mergePath p u else p }

/-- The body of the `map` inside `updateArea` (lines 1304-1327), applied to
the area whose id matches: merge the update; if the update carries a corner,
clamp the merged corners, recompute the circle from them and normalise the
bounds from that circle; otherwise only normalise the bounds from the merged
center and radius. -/
def updateAreaItem (size : Option (ImageSize ℚ)) (u : AreaUpdate) (a : Area ℚ) : Area ℚ :=
  let merged := mergeArea a u
  if u.topLeft.isSome ∨ u.bottomRight.isSome then
    let topLeft := clampPoint size merged.topLeft
    let bottomRight := clampPoint size merged.bottomRight
    let circle := circleFromBounds topLeft bottomRight
    let bounds := areaBoundsFromCircle circle.center circle.radius size
    { merged with
      center := circle.center
      radius := circle.radius
      topLeft := bounds.topLeft
      bottomRight := bounds.bottomRight }
  else
    let bounds := areaBoundsFromCircle merged.center merged.radius size
    { merged with topLeft := bounds.topLeft, bottomRight := bounds.bottomRight }

/-- `updateArea(id, newAreaData)` from `MapEditor.tsx` (lines 1303-1328). -/
def updateArea (id : String) (u : AreaUpdate) (s : EditorState) : EditorState :=
  { s with areas := s.areas.map fun a => if a.id = id then updateAreaItem s.imageSize u a else a }

/-- `deleteSelected()` from `MapEditor.tsx` (lines 1330-1355). -/
def deleteSelected (s : EditorState) : EditorState :=
  match s.selectedElement with
  | none => s
  | some sel =>
    let s1 : EditorState :=
      match sel.type with
      | ElementType.marker =>
        let updatedMarkers := s.markers.map fun m =>
          { m with linkedMarkerIds := m.linkedMarkerIds.map (List.filter (fun i => i ≠ sel.id)) }
        { s with
          markers := updatedMarkers.filter fun m => m.id ≠ sel.id
          paths := s.paths.filter fun p =>
            match p.linkedMarkers with
            | some lm => lm.startId ≠ sel.id ∧ lm.endId ≠ sel.id
            | none => true }
      | ElementType.path =>
        match s.paths.find? (fun p => p.id = sel.id) with
        | some pathToDelete =>
          let s2 : EditorState :=
            match pathToDelete.linkedMarkers with
            | some lm =>
              match s.markers.find? (fun m => m.id = lm.startId) with
              | some fromMarker =>
                updateMarker fromMarker.id
                  { linkedMarkerIds := some (fromMarker.linkedMarkerIds.map
                      (List.filter (fun i => i ≠ lm.endId))) } s
              | none => s
            | none => s
          { s2 with paths := s.paths.filter fun p => p.id ≠ sel.id }
        | none => { s with paths := s.paths.filter fun p => p.id ≠ sel.id }
      | ElementType.area =>
        { s with areas := s.areas.filter fun a => a.id ≠ sel.id }
    { s1 with selectedElement := none }

/-- `handleLinkMarkers(toMarkerId)` from `MapEditor.tsx` (lines 1366-1401).
`newPathId` stands for the generated `path-from-to-now` identifier. -/
def handleLinkMarkers (newPathId : String) (toMarkerId : String) (s : EditorState) : EditorState :=
  match s.linkingState with
  | none => s
  | some fromMarkerId =>
    if fromMarkerId = toMarkerId then { s with linkingState := none }
    else
      match s.markers.find? (fun m => m.id = fromMarkerId),
            s.markers.find? (fun m => m.id = toMarkerId) with
      | some fromMarker, some toMarker =>
        if (fromMarker.linkedMarkerIds.getD []).contains toMarkerId then
          { s with linkingState := none }
        else
          let newPath : Path :=
            { id := newPathId
              points := [fromMarker.position, toMarker.position]
              linkedMarkers := some ⟨fromMarkerId, toMarkerId⟩
              color := fromMarker.color }
          { s with
            markers := s.markers.map fun m =>
              if m.id = fromMarkerId then
                { m with linkedMarkerIds := some ((m.linkedMarkerIds.getD []) ++ [toMarkerId]) }
              else m
            paths := s.paths ++ [newPath]
            linkingState := none }
      | _, _ => { s with linkingState := none }

/-- `addPathPoint(point)` from `MapEditor.tsx` (lines 1214-1226).  `freshId`
stands for the generated `path-now` identifier used when no path is being
drawn. -/
def addPathPoint (freshId : String) (point : Point ℚ) (s : EditorState) : EditorState :=
  match s.drawingPathId with
  | some pid =>
    match s.paths.find? (fun p => p.id = pid) with
    | some path => updatePath pid { points := some (path.points ++ [point]) } s
    | none => s
  | none =>
    let newPath : Path := { id := freshId, points := [point], color := some "#f59e0b" }
    { s with
      paths := s.paths ++ [newPath]
      drawingPathId := some freshId
      selectedElement := none }

/-- `addAreaPoint(point)` from `MapEditor.tsx` (lines 1228-1253).  `freshId`
stands for the generated `area-now` identifier; `pointerDist` stands for the
value of `distance(drawingArea.center, point)` computed on the second click
(a nonnegative square root in the source). -/
def addAreaPoint (freshId : String) (point : Point ℚ) (pointerDist : ℚ)
    (s : EditorState) : EditorState :=
  match s.drawingArea with
  | none =>
    let initialRadius : ℚ := 1
    let bounds := areaBoundsFromCircle point initialRadius s.imageSize
    let newArea : Area ℚ :=
      { id := freshId
        number := some (toString (s.areas.length + 1))
        name := "New Area"
        center := point
        radius := initialRadius
        topLeft := bounds.topLeft
        bottomRight := bounds.bottomRight }
    { s with
      areas := s.areas ++ [newArea]
      drawingArea := some ⟨freshId, point⟩
      selectedElement := some ⟨ElementType.area, freshId⟩ }
  | some da =>
    let s1 := updateArea da.id { radius := some (max 1 pointerDist) } s
    { s1 with drawingArea := none }

/-- `insertPathPoint(pathId, point, index)` from `MapEditor.tsx`
(lines 1255-1264). -/
def insertPathPoint (pathId : String) (point : Point ℚ) (index : ℕ)
    (s : EditorState) : EditorState :=
  { s with paths := s.paths.map fun p =>
      if p.id = pathId then { p with points := p.points.insertIdx index point } else p }

/-- The Escape branch of `handleKeyUp` (lines 1414-1420): cancel linking and
clear the in-progress path id, the in-progress area and the selection.  The
entity collections are not touched. -/
def handleEscape (s : EditorState) : EditorState :=
  { s with
    linkingState := none
    drawingPathId := none
    drawingArea := none
    selectedElement := none }

/-- Setting the active tool, combined with the two `useEffect` hooks
(lines 1266-1276) that clear `drawingPathId` whenever the tool is not `path`
and `drawingArea` whenever the tool is not `area`. -/
def setActiveTool (t : Tool) (s : EditorState) : EditorState :=
  let s1 := { s with activeTool := t }
  let s2 := if t ≠ Tool.path then { s1 with drawingPathId := none } else s1
  if t ≠ Tool.area then { s2 with drawingArea := none } else s2

/-! ## The filter engine -/

/-- JavaScript `s || d` on an optional string: the default is taken when the
value is absent or the empty string. -/
def strOr (o : Option String) (d : String) : String :=
  match o with
  | some v => if v = "" then d else v
  | none => d

/-- The color key a marker is filtered under (`marker.color || '#10b981'`). -/
def markerColorKey (m : Marker) : String := strOr m.color "#10b981"

/-- `filteredMarkers` from `MapEditor.tsx` (lines 1447-1458).  A filter map
(`Record<string, boolean>`) is modelled as `String → Option Bool`; an entry
is "explicitly false" when the lookup yields `some false`. -/
def filteredMarkers (colorFilters areaFilters numberFilters : String → Option Bool)
    (markers : List Marker) : List Marker :=
  markers.filter fun marker =>
    let color := markerColorKey marker
    if colorFilters color = some false then false
    else
      let area := strOr marker.area ""
      if area ≠ "" ∧ areaFilters area = some false then false
      else
        let number := strOr marker.number ""
        if number ≠ "" ∧ numberFilters number = some false then false
        else true

/-- `filteredPaths` from `MapEditor.tsx` (lines 1460-1467): a path with no
`linkedMarkers` is kept; a linked path is kept when both endpoint ids occur
among the filtered markers. -/
def filteredPaths (colorFilters areaFilters numberFilters : String → Option Bool)
    (markers : List Marker) (paths : List Path) : List Path :=
  let visibleMarkerIds := (filteredMarkers colorFilters areaFilters numberFilters markers).map Marker.id
  paths.filter fun p =>
    match p.linkedMarkers with
    | none => true
    | some lm => lm.startId ∈ visibleMarkerIds ∧ lm.endId ∈ visibleMarkerIds

/-! ## Normalization of imported areas (real coordinates)

`normalizeAreas` migrates heterogeneous persisted data.  Its polygon branch
uses the Euclidean `distance`, a square root, so this section works over `ℝ`
(the definitions are noncomputable only because real arithmetic is; they are
still the literal translation of the source). -/

/-- `distance(a, b)` from `MapEditor.tsx` (lines 708-712). -/
noncomputable def distance (a b : Point ℝ) : ℝ :=
  Real.sqrt ((a.x - b.x) * (a.x - b.x) + (a.y - b.y) * (a.y - b.y))

/-- An element of a raw imported `points` array: each coordinate is present
and numeric, or not. -/
structure RawPoint where
  x : Option ℝ := none
  y : Option ℝ := none

/-- A raw imported area entry: every field the normalizer inspects, each
`none` when absent or not of the expected runtime type. -/
structure RawAreaEntry where
  id : Option String := none
  name : Option String := none
  number : Option String := none
  center : Option RawPoint := none
  radius : Option ℝ := none
  topLeft : Option RawPoint := none
  bottomRight : Option RawPoint := none
  points : Option (List RawPoint) := none

/-- The filter-and-map step of the polygon branch: keep a raw point only when
both coordinates are present and numeric. -/
def validPoint (p : RawPoint) : Option (Point ℝ) :=
  match p.x, p.y with
  | some x, some y => some ⟨x, y⟩
  | _, _ => none

/-- The guard of the circle branch of `normalizeAreas` (lines 761-766):
`center.x`, `center.y` and `radius` present and numeric.  Yields the decoded
center and radius when it passes. -/
def circleData (e : RawAreaEntry) : Option (Point ℝ × ℝ) :=
  match e.center, e.radius with
  | some c, some r =>
    match validPoint c with
    | some p => some (p, r)
    | none => none
  | _, _ => none

/-- The guard of the bounding-box branch of `normalizeAreas` (lines 775-782):
both corners present with numeric coordinates. -/
def boundsData (e : RawAreaEntry) : Option (Point ℝ × Point ℝ) :=
  match e.topLeft, e.bottomRight with
  | some tl, some br =>
    match validPoint tl, validPoint br with
    | some p, some q => some (p, q)
    | _, _ => none
  | _, _ => none

/-- `Math.max(...xs)` over a nonempty spread list.  The `[]` case never
arises behind the nonempty guard of the polygon branch (JavaScript would
yield `-Infinity` there, and the result is only ever used under an outer
`Math.max(1, ·)`). -/
def maxList : List ℝ → ℝ
  | [] => 0
  | x :: xs => xs.foldl max x

/-- The loop body of `normalizeAreas` (lines 754-808) applied to one raw
entry: the three shape branches tried in order, `none` when every guard
fails (the entry is dropped).  `fresh` stands for the generated
`area-now-random` identifier used when `id` is absent. -/
noncomputable def normalizeAreaItem (fresh : String) (e : RawAreaEntry) : Option (Area ℝ) :=
  let id := e.id.getD fresh
  let name := e.name.getD "Area"
  let number := e.number
  match circleData e with
  | some (center, rad) =>
    -- New format (circle); `Number.isFinite` always holds for a real value.
    let r := max 1 rad
    let bounds := areaBoundsFromCircle center r none
    some { id, name, number, center, radius := r
           topLeft := bounds.topLeft, bottomRight := bounds.bottomRight }
  | none =>
    match boundsData e with
    | some (tl, br) =>
      -- Bounds format.
      let circle := circleFromBounds tl br
      let bounds := areaBoundsFromCircle circle.center circle.radius none
      some { id, name, number, center := circle.center, radius := circle.radius
             topLeft := bounds.topLeft, bottomRight := bounds.bottomRight }
    | none =>
      match e.points with
      | some rawPts =>
        if rawPts.isEmpty then none
        else
          -- Legacy format (polygon points) -> circle from centroid plus
          -- maximum distance.
          let pts := rawPts.filterMap validPoint
          if pts.isEmpty then none
          else
            let center : Point ℝ :=
              ⟨(pts.map Point.x).sum / pts.length, (pts.map Point.y).sum / pts.length⟩
            let radius := max 1 (maxList (pts.map (distance center)))
            let bounds := areaBoundsFromCircle center radius none
            some { id, name, number, center, radius
                   topLeft := bounds.topLeft, bottomRight := bounds.bottomRight }
      | none => none

/-- The accumulation loop of `normalizeAreas`: `freshIds i` stands for the
identifier generated for the `i`-th entry when it lacks one. -/
noncomputable def normalizeAreasAux (freshIds : ℕ → String) : ℕ → List RawAreaEntry → List (Area ℝ)
  | _, [] => []
  | i, e :: rest =>
    match normalizeAreaItem (freshIds i) e with
    | some a => a :: normalizeAreasAux freshIds (i + 1) rest
    | none => normalizeAreasAux freshIds (i + 1) rest

/-- `normalizeAreas(raw)` from `MapEditor.tsx` (lines 750-811), for an input
that is an array (a non-array input yields `[]` before the loop). -/
noncomputable def normalizeAreas (freshIds : ℕ → String) (raw : List RawAreaEntry) : List (Area ℝ) :=
  normalizeAreasAux freshIds 0 raw

/-- The canonical area produced by the polygon branch of `normalizeAreas`:
center at the arithmetic mean of the points, radius the maximum distance
from that centroid to a point floored at 1, box recomputed from the
circle. -/
noncomputable def polygonArea (id name : String) (number : Option String)
    (pts : List (Point ℝ)) : Area ℝ :=
  let center : Point ℝ :=
    ⟨(pts.map Point.x).sum / pts.length, (pts.map Point.y).sum / pts.length⟩
  let radius := max 1 (maxList (pts.map (distance center)))
  let bounds := areaBoundsFromCircle center radius none
  { id, name, number, center, radius
    topLeft := bounds.topLeft, bottomRight := bounds.bottomRight }

/-! ## Specification-side definitions

These follow the wording of the specification, to be compared with the
definitions translated from the source. -/

/-- The specification's description of one `updateArea` step on the matching
area: when a corner is present in the update, the circle is recomputed from
the image-clamped corners — center the midpoint, radius the maximum of
half-width and half-height with minimum 1 — and the stored box is re-derived
from that circle and re-clamped; when no corner is present, only the box is
recomputed from the (possibly updated) center and radius (the box of the
circle, with the radius floored at 1, each corner clamped). -/
def updateAreaSpecItem (size : Option (ImageSize ℚ)) (u : AreaUpdate) (a : Area ℚ) : Area ℚ :=
  let merged := mergeArea a u
  if u.topLeft.isSome ∨ u.bottomRight.isSome then
    let tl := clampPoint size merged.topLeft
    let br := clampPoint size merged.bottomRight
    let center : Point ℚ := ⟨(tl.x + br.x) / 2, (tl.y + br.y) / 2⟩
    let radius := max 1 (max (|br.x - tl.x| / 2) (|br.y - tl.y| / 2))
    { merged with
      center := center
      radius := radius
      topLeft := clampPoint size ⟨center.x - radius, center.y - radius⟩
      bottomRight := clampPoint size ⟨center.x + radius, center.y + radius⟩ }
  else
    let r := max 1 merged.radius
    { merged with
      topLeft := clampPoint size ⟨merged.center.x - r, merged.center.y - r⟩
      bottomRight := clampPoint size ⟨merged.center.x + r, merged.center.y + r⟩ }

/-! ## Concrete example states -/

/-- Concrete state for the C1 witness: one marker, one linked path from it,
one freehand path. -/
def exampleStateC1 : EditorState :=
  { markers := [{ id := "m1", name := "M1", position := ⟨0, 0⟩, status := MarkerStatus.pending }]
    paths := [{ id := "p1", points := [⟨0, 0⟩, ⟨5, 5⟩], linkedMarkers := some ⟨"m1", "m2"⟩ },
              { id := "p2", points := [⟨1, 1⟩] }]
    areas := []
    activeTool := Tool.select }

/-- Concrete state for the C2 witness: marker `m2` is selected; `m1` links to
it and a linked path joins them; `m3` and a freehand path are unrelated. -/
def exampleStateC2 : EditorState :=
  { markers := [{ id := "m1", name := "M1", position := ⟨0, 0⟩, status := MarkerStatus.pending,
                  linkedMarkerIds := some ["m2"] },
                { id := "m2", name := "M2", position := ⟨5, 5⟩, status := MarkerStatus.pending,
                  linkedMarkerIds := some [] },
                { id := "m3", name := "M3", position := ⟨7, 7⟩, status := MarkerStatus.active }]
    paths := [{ id := "p12", points := [⟨0, 0⟩, ⟨5, 5⟩], linkedMarkers := some ⟨"m1", "m2"⟩ },
              { id := "p3", points := [⟨1, 2⟩, ⟨3, 4⟩] }]
    areas := []
    activeTool := Tool.select
    selectedElement := some ⟨ElementType.marker, "m2"⟩ }

/-- Concrete state for C3: one well-formed area of radius 5. -/
def exampleStateC3 : EditorState :=
  { markers := []
    paths := []
    areas := [{ id := "A", name := "Area", center := ⟨10, 10⟩, radius := 5,
                topLeft := ⟨5, 5⟩, bottomRight := ⟨15, 15⟩ }]
    activeTool := Tool.select }

/-- Concrete state for the C4 witness: two unlinked markers. -/
def exampleStateC4 : EditorState :=
  { markers := [{ id := "a", name := "A", position := ⟨0, 0⟩, status := MarkerStatus.pending,
                  linkedMarkerIds := some [], color := some "#10b981" },
                { id := "b", name := "B", position := ⟨1, 1⟩, status := MarkerStatus.pending }]
    paths := []
    areas := []
    activeTool := Tool.select }

/-- Concrete state for C9: no element has id `ghost`. -/
def exampleStateC9 : EditorState :=
  { markers := [{ id := "m1", name := "M1", position := ⟨0, 0⟩, status := MarkerStatus.pending }]
    paths := [{ id := "p1", points := [⟨0, 0⟩] }]
    areas := [{ id := "A", name := "Area", center := ⟨10, 10⟩, radius := 5,
                topLeft := ⟨5, 5⟩, bottomRight := ⟨15, 15⟩ }]
    activeTool := Tool.select }

/-- Concrete raw entry for the C7 witness: a legacy polygon with one valid
point. -/
def exampleRawPolygon : RawAreaEntry :=
  { points := some [⟨some 3, some 4⟩] }

/-- Concrete raw entry for the C7 witness: matches none of the shapes. -/
def exampleRawEmpty : RawAreaEntry := {}

/-- Concrete marker for the C6 witness. -/
def exampleMarkerC6 : Marker :=
  { id := "m1", name := "M1", position := ⟨0, 0⟩, status := MarkerStatus.pending }

/-- Concrete freehand path for the C6 witness. -/
def examplePathC6 : Path := { id := "p1", points := [⟨0, 0⟩] }

/-- Concrete color filter for the C6 witness. -/
def exampleColorFilter : String → Option Bool :=
  fun c => if c = "#ff0000" then some false else none

/-- The everything-visible filter map. -/
def noFilter : String → Option Bool := fun _ => none

/-! ## Helper lemmas -/

/-- `circleFromBounds` applied to the square box of a circle of radius at
least 1 recovers that circle. -/
theorem circleFromBounds_square (c : Point ℚ) (r : ℚ) (hr : 1 ≤ r) :
    circleFromBounds ⟨c.x - r, c.y - r⟩ ⟨c.x + r, c.y + r⟩ = ⟨c, r⟩ := by
  have h0 : (0 : ℚ) ≤ r := le_trans zero_le_one hr
  have hx : c.x - r ≤ c.x + r := by linarith
  have hy : c.y - r ≤ c.y + r := by linarith
  unfold circleFromBounds
  simp only [min_eq_left hx, max_eq_right hx, min_eq_left hy, max_eq_right hy]
  have ex : (c.x - r + (c.x + r)) / 2 = c.x := by ring
  have ey : (c.y - r + (c.y + r)) / 2 = c.y := by ring
  have er : (c.x + r - (c.x - r)) / 2 = r := by ring
  have er' : (c.y + r - (c.y - r)) / 2 = r := by ring
  simp [ex, ey, er, er', max_self, max_eq_right hr]

/-- The radius produced by `circleFromBounds` is at least 1. -/
theorem one_le_circleFromBounds_radius (tl br : Point ℚ) :
    1 ≤ (circleFromBounds tl br).radius :=
  le_max_left _ _

/-- Unclamped `areaBoundsFromCircle` of a circle of radius at least 1. -/
theorem areaBoundsFromCircle_of_one_le (c : Point ℚ) (r : ℚ) (hr : 1 ≤ r) :
    areaBoundsFromCircle c r none = ⟨⟨c.x - r, c.y - r⟩, ⟨c.x + r, c.y + r⟩⟩ := by
  unfold areaBoundsFromCircle clampPoint
  simp [max_eq_right hr]

/-- Setting index 0 of a nonempty list fixes its head. -/
theorem head?_set_zero {α : Type} (l : List α) (a : α) (h : l ≠ []) :
    (l.set 0 a).head? = some a := by
  cases l with
  | nil => exact absurd rfl h
  | cons x xs => rfl

/-- Prepending to a nonempty list does not change its last element. -/
theorem getLast?_cons_of_ne_nil {α : Type} (x : α) (l : List α) (h : l ≠ []) :
    (x :: l).getLast? = l.getLast? := by
  cases l with
  | nil => exact absurd rfl h
  | cons y ys => exact List.getLast?_cons_cons

/-- Setting the last index of a nonempty list fixes its last element. -/
theorem getLast?_set_last {α : Type} (l : List α) (a : α) (h : l ≠ []) :
    (l.set (l.length - 1) a).getLast? = some a := by
  induction l with
  | nil => exact absurd rfl h
  | cons x xs ih =>
    cases xs with
    | nil => rfl
    | cons y ys =>
      have hlen : (x :: y :: ys).length - 1 = (y :: ys).length - 1 + 1 := by
        simp
      have hset : (x :: y :: ys).set ((x :: y :: ys).length - 1) a =
          x :: (y :: ys).set ((y :: ys).length - 1) a := by
        rw [hlen]
        rfl
      have hne2 : (y :: ys).set ((y :: ys).length - 1) a ≠ [] := by
        intro hn
        have := congrArg List.length hn
        simp at this
      rw [hset, getLast?_cons_of_ne_nil _ _ hne2]
      exact ih (by simp)

/-- `syncPathEndpoints` never changes the link record of a path. -/
theorem syncPathEndpoints_linkedMarkers (id : String) (pos : Point ℚ) (p : Path) :
    (syncPathEndpoints id pos p).linkedMarkers = p.linkedMarkers := by
  cases h : p.linkedMarkers with
  | none => simp [syncPathEndpoints, h]
  | some lm =>
    by_cases h1 : lm.startId = id
    · simp [syncPathEndpoints, h, h1]
    · by_cases h2 : lm.endId = id <;> simp [syncPathEndpoints, h, h1, h2]

/-- One `updateArea` step keeps the radius at least 1 provided the update
carries a corner, or its proposed radius (when present) is itself at least 1;
in the corner case the recomputed radius is clamped by `circleFromBounds`,
otherwise the merged radius is stored verbatim. -/
theorem updateAreaItem_radius_ge (size : Option (ImageSize ℚ)) (u : AreaUpdate) (a : Area ℚ)
    (ha : 1 ≤ a.radius)
    (hu : u.topLeft.isSome ∨ u.bottomRight.isSome ∨ u.radius = none ∨
      ∃ r, u.radius = some r ∧ 1 ≤ r) :
    1 ≤ (updateAreaItem size u a).radius := by
  unfold updateAreaItem
  by_cases hb : u.topLeft.isSome ∨ u.bottomRight.isSome
  · simp only [hb, if_true]
    exact le_max_left _ _
  · simp only [hb, if_false]
    show 1 ≤ (mergeArea a u).radius
    have hmr : (mergeArea a u).radius = u.radius.getD a.radius := rfl
    rw [hmr]
    cases hr : u.radius with
    | none => simpa using ha
    | some r =>
      rcases hu with h | h | h | ⟨r', hr', hr1⟩
      · exact absurd (Or.inl h) hb
      · exact absurd (Or.inr h) hb
      · rw [hr] at h
        exact Option.noConfusion h
      · rw [hr] at hr'
        injection hr' with h'
        rw [Option.getD_some, h']
        exact hr1

/-- `updateArea` preserves the radius-at-least-1 invariant under the same
proviso on the update. -/
theorem updateArea_radius_ge (s : EditorState) (id : String) (u : AreaUpdate)
    (hs : ∀ a ∈ s.areas, 1 ≤ a.radius)
    (hu : u.topLeft.isSome ∨ u.bottomRight.isSome ∨ u.radius = none ∨
      ∃ r, u.radius = some r ∧ 1 ≤ r) :
    ∀ a ∈ (updateArea id u s).areas, 1 ≤ a.radius := by
  intro a ha
  have ha' : a ∈ s.areas.map
      (fun b => if b.id = id then updateAreaItem s.imageSize u b else b) := ha
  obtain ⟨b, hb, rfl⟩ := List.mem_map.mp ha'
  by_cases hid : b.id = id
  · simp only [hid, if_true]
    exact updateAreaItem_radius_ge _ _ _ (hs b hb) hu
  · simp only [hid, if_false]
    exact hs b hb

/-- `find?` by id commutes with mapping an id-preserving function. -/
theorem find?_map_preserving_id (f : Marker → Marker) (hid : ∀ m, (f m).id = m.id)
    (l : List Marker) (aid : String) :
    (l.map f).find? (fun m => m.id = aid) = (l.find? (fun m => m.id = aid)).map f := by
  induction l with
  | nil => rfl
  | cons x xs ih =>
    rw [List.map_cons]
    by_cases hx : x.id = aid
    · rw [List.find?_cons_of_pos, List.find?_cons_of_pos, Option.map_some']
      · simpa using hx
      · simpa [hid x] using hx
    · rw [List.find?_cons_of_neg, List.find?_cons_of_neg, ih]
      · simpa using hx
      · simpa [hid x] using hx

/-- The marker-list transformation of a successful `handleLinkMarkers` call
preserves ids. -/
theorem linkAppend_preserves_id (a b : String) (m : Marker) :
    ((fun m : Marker =>
      if m.id = a then { m with linkedMarkerIds := some ((m.linkedMarkerIds.getD []) ++ [b]) }
      else m) m).id = m.id := by
  by_cases h : m.id = a <;> simp [h]

/-- A successful `handleLinkMarkers` call: appends `b` to the source
marker's link list and appends exactly one linked path seeded with both
positions and the source marker's color. -/
theorem handleLinkMarkers_success (s : EditorState) (a b n : String) (ma mb : Marker)
    (hab : a ≠ b)
    (hfa : s.markers.find? (fun m => m.id = a) = some ma)
    (hfb : s.markers.find? (fun m => m.id = b) = some mb)
    (hcon : (ma.linkedMarkerIds.getD []).contains b = false) :
    handleLinkMarkers n b { s with linkingState := some a } =
      { s with
        markers := s.markers.map fun m =>
          if m.id = a then { m with linkedMarkerIds := some ((m.linkedMarkerIds.getD []) ++ [b]) }
          else m
        paths := s.paths ++ [⟨n, [ma.position, mb.position], some ⟨a, b⟩, ma.color⟩]
        linkingState := none } := by
  simp [handleLinkMarkers, hab, hfa, hfb, hcon]
  simpa using hcon

/-- Every unsuccessful `handleLinkMarkers` call — self link, unknown source
or target id, or an already-present link — leaves markers, paths and areas
unchanged. -/
theorem handleLinkMarkers_noop (s : EditorState) (a b n : String)
    (h : a = b ∨ s.markers.find? (fun m => m.id = a) = none ∨
      s.markers.find? (fun m => m.id = b) = none ∨
      (∃ ma, s.markers.find? (fun m => m.id = a) = some ma ∧
        (ma.linkedMarkerIds.getD []).contains b = true)) :
    (handleLinkMarkers n b { s with linkingState := some a }).markers = s.markers ∧
    (handleLinkMarkers n b { s with linkingState := some a }).paths = s.paths ∧
    (handleLinkMarkers n b { s with linkingState := some a }).areas = s.areas := by
  by_cases hab : a = b
  · simp [handleLinkMarkers, hab]
  · rcases h with h | h | h | ⟨ma, hma, hcon⟩
    · exact absurd h hab
    · simp [handleLinkMarkers, hab, h]
    · cases hfa : s.markers.find? (fun m => m.id = a) with
      | none => simp [handleLinkMarkers, hab, hfa]
      | some ma => simp [handleLinkMarkers, hab, hfa, h]
    · have hmem : b ∈ ma.linkedMarkerIds.getD [] := by simpa using hcon
      cases hfb : s.markers.find? (fun m => m.id = b) with
      | none => simp [handleLinkMarkers, hab, hma, hfb]
      | some mb => simp [handleLinkMarkers, hab, hma, hfb, hmem]

/-- The center computed by `circleFromBounds` is the plain midpoint of the
two corners (orientation does not matter). -/
theorem circleFromBounds_center_eq (tl br : Point ℚ) :
    (circleFromBounds tl br).center = ⟨(tl.x + br.x) / 2, (tl.y + br.y) / 2⟩ := by
  unfold circleFromBounds
  simp only [Point.mk.injEq]
  constructor
  · rw [min_add_max]
  · rw [min_add_max]

/-- The radius computed by `circleFromBounds` is the larger absolute
half-dimension of the corner pair, floored at 1. -/
theorem circleFromBounds_radius_eq (tl br : Point ℚ) :
    (circleFromBounds tl br).radius =
      max 1 (max (|br.x - tl.x| / 2) (|br.y - tl.y| / 2)) := by
  unfold circleFromBounds
  simp only
  rw [max_sub_min_eq_abs, max_sub_min_eq_abs]

/-- `areaBoundsFromCircle` with a radius already at least 1. -/
theorem areaBoundsFromCircle_max_one (c : Point ℚ) (r : ℚ) (size : Option (ImageSize ℚ))
    (hr : 1 ≤ r) :
    areaBoundsFromCircle c r size =
      ⟨clampPoint size ⟨c.x - r, c.y - r⟩, clampPoint size ⟨c.x + r, c.y + r⟩⟩ := by
  unfold areaBoundsFromCircle
  rw [max_eq_right hr]

/-- The per-area step of `updateArea` agrees with the specification's
description of it. -/
theorem updateAreaItem_eq_spec (size : Option (ImageSize ℚ)) (u : AreaUpdate) (a : Area ℚ) :
    updateAreaItem size u a = updateAreaSpecItem size u a := by
  unfold updateAreaItem updateAreaSpecItem
  by_cases hb : u.topLeft.isSome ∨ u.bottomRight.isSome
  · simp only [hb, if_true]
    rw [areaBoundsFromCircle_max_one _ _ _ (one_le_circleFromBounds_radius _ _),
      circleFromBounds_center_eq, circleFromBounds_radius_eq]
  · simp only [hb, if_false]
    rfl

/-- The filter body of `filteredMarkers`, characterised as a proposition. -/
theorem filteredMarkers_mem_iff (cf af nf : String → Option Bool)
    (markers : List Marker) (m : Marker) :
    m ∈ filteredMarkers cf af nf markers ↔
      m ∈ markers ∧ cf (markerColorKey m) ≠ some false ∧
      (strOr m.area "" ≠ "" → af (strOr m.area "") ≠ some false) ∧
      (strOr m.number "" ≠ "" → nf (strOr m.number "") ≠ some false) := by
  unfold filteredMarkers
  rw [List.mem_filter]
  have hbody :
      ((if cf (markerColorKey m) = some false then false
        else if strOr m.area "" ≠ "" ∧ af (strOr m.area "") = some false then false
        else if strOr m.number "" ≠ "" ∧ nf (strOr m.number "") = some false then false
        else true) = true) ↔
      (cf (markerColorKey m) ≠ some false ∧
        (strOr m.area "" ≠ "" → af (strOr m.area "") ≠ some false) ∧
        (strOr m.number "" ≠ "" → nf (strOr m.number "") ≠ some false)) := by
    by_cases h1 : cf (markerColorKey m) = some false
    · simp [h1]
    · by_cases h2 : strOr m.area "" ≠ "" ∧ af (strOr m.area "") = some false
      · obtain ⟨h2a, h2b⟩ := h2
        simp [h1, h2a, h2b]
      · have h2' : strOr m.area "" ≠ "" → af (strOr m.area "") ≠ some false :=
          fun ha hb => h2 ⟨ha, hb⟩
        by_cases h3 : strOr m.number "" ≠ "" ∧ nf (strOr m.number "") = some false
        · obtain ⟨h3a, h3b⟩ := h3
          simp [h1, h2, h3a, h3b]
        · have h3' : strOr m.number "" ≠ "" → nf (strOr m.number "") ≠ some false :=
            fun ha hb => h3 ⟨ha, hb⟩
          exact iff_of_true (by simp [h1, h2, h3]) ⟨h1, h2', h3'⟩
  rw [hbody]

/-- The filter body of `filteredPaths`, characterised as a proposition. -/
theorem filteredPaths_mem_iff (cf af nf : String → Option Bool)
    (markers : List Marker) (paths : List Path) (p : Path) :
    p ∈ filteredPaths cf af nf markers paths ↔
      p ∈ paths ∧ (p.linkedMarkers = none ∨
        ∃ lm, p.linkedMarkers = some lm ∧
          (∃ m1 ∈ filteredMarkers cf af nf markers, m1.id = lm.startId) ∧
          (∃ m2 ∈ filteredMarkers cf af nf markers, m2.id = lm.endId)) := by
  unfold filteredPaths
  rw [List.mem_filter]
  cases hlm : p.linkedMarkers with
  | none => simp [hlm]
  | some lm =>
    simp only [hlm]
    constructor
    · rintro ⟨hp, hcond⟩
      refine ⟨hp, Or.inr ⟨lm, rfl, ?_, ?_⟩⟩
      · have h1 := (of_decide_eq_true hcond).1
        obtain ⟨m1, hm1, hid⟩ := List.mem_map.mp h1
        exact ⟨m1, hm1, hid⟩
      · have h2 := (of_decide_eq_true hcond).2
        obtain ⟨m2, hm2, hid⟩ := List.mem_map.mp h2
        exact ⟨m2, hm2, hid⟩
    · rintro ⟨hp, h | ⟨lm', hlm', h1, h2⟩⟩
      · exact absurd h (by simp)
      · injection hlm' with he
        subst he
        refine ⟨hp, decide_eq_true ⟨?_, ?_⟩⟩
        · obtain ⟨m1, hm1, hid⟩ := h1
          exact List.mem_map.mpr ⟨m1, hm1, hid⟩
        · obtain ⟨m2, hm2, hid⟩ := h2
          exact List.mem_map.mpr ⟨m2, hm2, hid⟩

/-- Mapping a function that fixes every element of a list is the identity. -/
theorem map_fix_eq {α : Type} (l : List α) (f : α → α) (h : ∀ x ∈ l, f x = x) :
    l.map f = l := by
  induction l with
  | nil => rfl
  | cons x xs ih =>
    rw [List.map_cons, h x (by simp), ih (fun y hy => h y (by simp [hy]))]

/-- `updateMarker` written as a single record update. -/
theorem updateMarker_eq (id : String) (u : MarkerUpdate) (s : EditorState) :
    updateMarker id u s =
      { s with
        markers := s.markers.map fun m => if m.id = id then mergeMarker m u else m
        paths :=
          match u.position with
          | some newPos => s.paths.map (syncPathEndpoints id newPos)
          | none => s.paths } := by
  unfold updateMarker
  cases hup : u.position with
  | none => rfl
  | some pos => rfl

/-- `setActiveTool` never touches the paths collection. -/
theorem setActiveTool_paths (t : Tool) (s : EditorState) :
    (setActiveTool t s).paths = s.paths := by
  unfold setActiveTool
  by_cases h1 : t ≠ Tool.path <;> by_cases h2 : t ≠ Tool.area <;> simp [h1, h2]

/-- Switching the tool away from `path` clears the active path id. -/
theorem setActiveTool_drawingPathId_of_ne (t : Tool) (s : EditorState) (h : t ≠ Tool.path) :
    (setActiveTool t s).drawingPathId = none := by
  unfold setActiveTool
  by_cases h2 : t ≠ Tool.area <;> simp [h, h2]

/-- `foldl max` dominates its seed and every element. -/
theorem foldl_max_bounds (ys : List ℝ) (y : ℝ) :
    y ≤ ys.foldl max y ∧ ∀ x ∈ ys, x ≤ ys.foldl max y := by
  induction ys generalizing y with
  | nil => exact ⟨le_refl y, by simp⟩
  | cons z zs ih =>
    obtain ⟨h1, h2⟩ := ih (max y z)
    refine ⟨le_trans (le_max_left y z) h1, ?_⟩
    intro x hx
    rcases List.mem_cons.mp hx with rfl | hx
    · exact le_trans (le_max_right y x) h1
    · exact h2 x hx

/-- `foldl max` returns its seed or one of the elements. -/
theorem foldl_max_mem (ys : List ℝ) (y : ℝ) : ys.foldl max y ∈ y :: ys := by
  induction ys generalizing y with
  | nil => simp
  | cons z zs ih =>
    have h := ih (max y z)
    rcases List.mem_cons.mp h with h | h
    · rcases max_choice y z with hc | hc
      · exact List.mem_cons.mpr (Or.inl (by rw [List.foldl_cons, h, hc]))
      · refine List.mem_cons.mpr (Or.inr (List.mem_cons.mpr (Or.inl ?_)))
        rw [List.foldl_cons, h, hc]
    · exact List.mem_cons.mpr (Or.inr (List.mem_cons.mpr (Or.inr (by rw [List.foldl_cons]; exact h))))

/-- Every element of a list is at most its `maxList`. -/
theorem le_maxList (l : List ℝ) (x : ℝ) (hx : x ∈ l) : x ≤ maxList l := by
  cases l with
  | nil => simp at hx
  | cons y ys =>
    rcases List.mem_cons.mp hx with rfl | hx
    · exact (foldl_max_bounds ys x).1
    · exact (foldl_max_bounds ys y).2 x hx

/-- `maxList` of a nonempty list is one of its elements. -/
theorem maxList_mem (l : List ℝ) (h : l ≠ []) : maxList l ∈ l := by
  cases l with
  | nil => exact absurd rfl h
  | cons y ys => exact foldl_max_mem ys y

/-- Reduction of `normalizeAreaItem` on a polygon-shaped entry. -/
theorem normalizeAreaItem_polygon (fresh : String) (e : RawAreaEntry) (rawPts : List RawPoint)
    (hc : circleData e = none) (hb : boundsData e = none) (hpts : e.points = some rawPts)
    (hrawE : rawPts.isEmpty = false) (hptsE : (rawPts.filterMap validPoint).isEmpty = false) :
    normalizeAreaItem fresh e =
      some (polygonArea (e.id.getD fresh) (e.name.getD "Area") e.number
        (rawPts.filterMap validPoint)) := by
  simp [normalizeAreaItem, polygonArea, hc, hb, hpts, hrawE, hptsE]

/-! ## Claim theorems -/

/-- Claim C8: the box-from-circle-from-box derivation is idempotent — for any
corner pair, deriving the circle with `circleFromBounds` and the box with
`areaBoundsFromCircle`, then repeating the same derivation on the resulting
box, yields the same box (exactly, in rational arithmetic). -/
theorem box_derivation_idempotent (tl br : Point ℚ) :
    (areaBoundsFromCircle
      (circleFromBounds
        (areaBoundsFromCircle (circleFromBounds tl br).center (circleFromBounds tl br).radius none).topLeft
        (areaBoundsFromCircle (circleFromBounds tl br).center (circleFromBounds tl br).radius none).bottomRight).center
      (circleFromBounds
        (areaBoundsFromCircle (circleFromBounds tl br).center (circleFromBounds tl br).radius none).topLeft
        (areaBoundsFromCircle (circleFromBounds tl br).center (circleFromBounds tl br).radius none).bottomRight).radius
      none) =
    areaBoundsFromCircle (circleFromBounds tl br).center (circleFromBounds tl br).radius none := by
  set c := circleFromBounds tl br with hc
  have hr : 1 ≤ c.radius := one_le_circleFromBounds_radius tl br
  rw [areaBoundsFromCircle_of_one_le c.center c.radius hr,
      circleFromBounds_square c.center c.radius hr,
      areaBoundsFromCircle_of_one_le c.center c.radius hr]

/-- Claim C1: after `updateMarker` moves marker `M` (a `position` field is in
the update), every path whose link starts at `M.id` has its first point at
the new position, every path whose link ends at `M.id` has its last point at
the new position, and every path not linked to `M` is unchanged (at its
original index; the path list keeps its length).  Paths are assumed
well-formed as the data model requires: nonempty point lists, and links
joining two distinct markers. -/
theorem updateMarker_syncs_linked_paths
    (s : EditorState) (id : String) (u : MarkerUpdate) (pos : Point ℚ)
    (hpos : u.position = some pos)
    (hne : ∀ p ∈ s.paths, p.points ≠ [])
    (hdisj : ∀ p ∈ s.paths, ∀ lm, p.linkedMarkers = some lm → lm.startId ≠ lm.endId) :
    (∀ q ∈ (updateMarker id u s).paths, ∀ lm, q.linkedMarkers = some lm →
        (lm.startId = id → q.points.head? = some pos) ∧
        (lm.endId = id → q.points.getLast? = some pos)) ∧
    ((updateMarker id u s).paths.length = s.paths.length) ∧
    (∀ (i : ℕ) (p : Path), s.paths[i]? = some p →
        (∀ lm, p.linkedMarkers = some lm → lm.startId ≠ id ∧ lm.endId ≠ id) →
        (updateMarker id u s).paths[i]? = some p) := by
  have hpaths : (updateMarker id u s).paths = s.paths.map (syncPathEndpoints id pos) := by
    unfold updateMarker
    rw [hpos]
  refine ⟨?_, ?_, ?_⟩
  · intro q hq lm hlm
    rw [hpaths] at hq
    obtain ⟨p, hp, rfl⟩ := List.mem_map.mp hq
    have hplm : p.linkedMarkers = some lm := by
      rw [← syncPathEndpoints_linkedMarkers id pos p]
      exact hlm
    by_cases h1 : lm.startId = id
    · have h2 : lm.endId ≠ id := by
        intro h2
        exact hdisj p hp lm hplm (h1.trans h2.symm)
      refine ⟨fun _ => ?_, fun h => absurd h h2⟩
      have hpts : (syncPathEndpoints id pos p).points = p.points.set 0 pos := by
        simp [syncPathEndpoints, hplm, h1]
      rw [hpts]
      exact head?_set_zero _ _ (hne p hp)
    · by_cases h2 : lm.endId = id
      · refine ⟨fun h => absurd h h1, fun _ => ?_⟩
        have hpts : (syncPathEndpoints id pos p).points =
            p.points.set (p.points.length - 1) pos := by
          simp [syncPathEndpoints, hplm, h1, h2]
        rw [hpts]
        exact getLast?_set_last _ _ (hne p hp)
      · exact ⟨fun h => absurd h h1, fun h => absurd h h2⟩
  · rw [hpaths, List.length_map]
  · intro i p hip hnotref
    rw [hpaths, List.getElem?_map, hip]
    have hfix : syncPathEndpoints id pos p = p := by
      cases hplm : p.linkedMarkers with
      | none => simp [syncPathEndpoints, hplm]
      | some lm =>
        obtain ⟨hs, he⟩ := hnotref lm hplm
        simp [syncPathEndpoints, hplm, hs, he]
    rw [Option.map_some', hfix]

/-- Witness for C1 at a concrete state. -/
theorem updateMarker_syncs_linked_paths_witness :
    (∀ q ∈ (updateMarker "m1" { position := some ⟨9, 9⟩ } exampleStateC1).paths,
        ∀ lm, q.linkedMarkers = some lm →
        (lm.startId = "m1" → q.points.head? = some ⟨9, 9⟩) ∧
        (lm.endId = "m1" → q.points.getLast? = some ⟨9, 9⟩)) ∧
    ((updateMarker "m1" { position := some ⟨9, 9⟩ } exampleStateC1).paths.length =
      exampleStateC1.paths.length) ∧
    (∀ (i : ℕ) (p : Path), exampleStateC1.paths[i]? = some p →
        (∀ lm, p.linkedMarkers = some lm → lm.startId ≠ "m1" ∧ lm.endId ≠ "m1") →
        (updateMarker "m1" { position := some ⟨9, 9⟩ } exampleStateC1).paths[i]? = some p) :=
  updateMarker_syncs_linked_paths exampleStateC1 "m1" { position := some ⟨9, 9⟩ } ⟨9, 9⟩
    rfl (by decide) (by decide)

/-- Claim C2: deleting the selected marker `M` removes it, strips `M.id`
from every remaining marker's `linkedMarkerIds` (leaving all their other
fields unchanged, in order), removes every path whose link references `M.id`
on either end, and keeps exactly the non-referencing paths. -/
theorem deleteSelected_marker_cascades
    (s : EditorState) (mid : String)
    (hsel : s.selectedElement = some ⟨ElementType.marker, mid⟩) :
    ((deleteSelected s).markers.length = (s.markers.filter fun m => m.id ≠ mid).length) ∧
    (∀ (i : ℕ) (m : Marker), (s.markers.filter fun m => m.id ≠ mid)[i]? = some m →
        ∃ m', (deleteSelected s).markers[i]? = some m' ∧
          m'.id = m.id ∧ m'.name = m.name ∧ m'.number = m.number ∧
          m'.area = m.area ∧ m'.position = m.position ∧ m'.status = m.status ∧
          m'.color = m.color ∧
          m'.linkedMarkerIds = m.linkedMarkerIds.map (List.filter fun i => i ≠ mid)) ∧
    (∀ m' ∈ (deleteSelected s).markers, mid ∉ m'.linkedMarkerIds.getD []) ∧
    (∀ p ∈ (deleteSelected s).paths, p ∈ s.paths ∧
        ∀ lm, p.linkedMarkers = some lm → lm.startId ≠ mid ∧ lm.endId ≠ mid) ∧
    (∀ p ∈ s.paths,
        (∀ lm, p.linkedMarkers = some lm → lm.startId ≠ mid ∧ lm.endId ≠ mid) →
        p ∈ (deleteSelected s).paths) := by
  have hmk : (deleteSelected s).markers =
      ((s.markers.map fun m =>
          { m with linkedMarkerIds := m.linkedMarkerIds.map (List.filter fun i => i ≠ mid) }).filter
        fun m => m.id ≠ mid) := by
    simp [deleteSelected, hsel]
  have hpa : (deleteSelected s).paths =
      (s.paths.filter fun p =>
        match p.linkedMarkers with
        | some lm => lm.startId ≠ mid ∧ lm.endId ≠ mid
        | none => true) := by
    simp [deleteSelected, hsel]
  have hswap : (deleteSelected s).markers =
      ((s.markers.filter fun m => m.id ≠ mid).map fun m =>
        { m with linkedMarkerIds := m.linkedMarkerIds.map (List.filter fun i => i ≠ mid) }) := by
    rw [hmk, List.filter_map]
    rfl
  refine ⟨?_, ?_, ?_, ?_, ?_⟩
  · rw [hswap, List.length_map]
  · intro i m him
    refine ⟨{ m with linkedMarkerIds := m.linkedMarkerIds.map (List.filter fun i => i ≠ mid) },
      ?_, rfl, rfl, rfl, rfl, rfl, rfl, rfl, rfl⟩
    rw [hswap, List.getElem?_map, him, Option.map_some']
  · intro m' hm'
    rw [hswap] at hm'
    obtain ⟨m, _, rfl⟩ := List.mem_map.mp hm'
    cases hl : m.linkedMarkerIds with
    | none => simp [hl]
    | some l => simp [hl, List.mem_filter]
  · intro p hp
    rw [hpa] at hp
    have := List.mem_filter.mp hp
    refine ⟨this.1, ?_⟩
    intro lm hlm
    have hcond := this.2
    rw [hlm] at hcond
    simpa using hcond
  · intro p hp hnotref
    rw [hpa]
    refine List.mem_filter.mpr ⟨hp, ?_⟩
    cases hlm : p.linkedMarkers with
    | none => simp
    | some lm =>
      have := hnotref lm hlm
      simp [this.1, this.2]

/-- Witness for C2 at a concrete state. -/
theorem deleteSelected_marker_cascades_witness :
    ((deleteSelected exampleStateC2).markers.length =
      (exampleStateC2.markers.filter fun m => m.id ≠ "m2").length) ∧
    (∀ (i : ℕ) (m : Marker), (exampleStateC2.markers.filter fun m => m.id ≠ "m2")[i]? = some m →
        ∃ m', (deleteSelected exampleStateC2).markers[i]? = some m' ∧
          m'.id = m.id ∧ m'.name = m.name ∧ m'.number = m.number ∧
          m'.area = m.area ∧ m'.position = m.position ∧ m'.status = m.status ∧
          m'.color = m.color ∧
          m'.linkedMarkerIds = m.linkedMarkerIds.map (List.filter fun i => i ≠ "m2")) ∧
    (∀ m' ∈ (deleteSelected exampleStateC2).markers, "m2" ∉ m'.linkedMarkerIds.getD []) ∧
    (∀ p ∈ (deleteSelected exampleStateC2).paths, p ∈ exampleStateC2.paths ∧
        ∀ lm, p.linkedMarkers = some lm → lm.startId ≠ "m2" ∧ lm.endId ≠ "m2") ∧
    (∀ p ∈ exampleStateC2.paths,
        (∀ lm, p.linkedMarkers = some lm → lm.startId ≠ "m2" ∧ lm.endId ≠ "m2") →
        p ∈ (deleteSelected exampleStateC2).paths) :=
  deleteSelected_marker_cascades exampleStateC2 "m2" rfl

/-- Counterexample to claim C3 as stated: `updateArea` with a proposed
radius of `-5` (and no corner in the update) stores that radius verbatim —
only the derived bounding box uses the value clamped to 1 — so the stored
radius of the area ends up below 1. -/
theorem updateArea_stores_negative_radius :
    ((updateArea "A" { radius := some (-5) } exampleStateC3).areas.map Area.radius = [-5]) ∧
    ((-5 : ℚ) < 1) := by
  exact ⟨by decide, by norm_num⟩

/-- Claim C3 (amended): after area creation (either click of the two-click
gesture) and after any `updateArea` whose update carries a corner, omits the
radius, or proposes a radius that is itself at least 1 — which covers every
call site in the editor, since radius drags, the drawing commit and the
sidebar field all clamp with `Math.max(1, ·)` before calling — every stored
area radius remains at least 1.  (An `updateArea` whose update carries a
radius below 1 stores it verbatim, as the counterexample shows.) -/
theorem area_radius_min_one_amended :
    (∀ (s : EditorState) (id : String) (u : AreaUpdate),
        (∀ a ∈ s.areas, 1 ≤ a.radius) →
        (u.topLeft.isSome ∨ u.bottomRight.isSome ∨ u.radius = none ∨
          ∃ r, u.radius = some r ∧ 1 ≤ r) →
        ∀ a ∈ (updateArea id u s).areas, 1 ≤ a.radius) ∧
    (∀ (s : EditorState) (fresh : String) (pt : Point ℚ) (d : ℚ),
        (∀ a ∈ s.areas, 1 ≤ a.radius) →
        ∀ a ∈ (addAreaPoint fresh pt d s).areas, 1 ≤ a.radius) := by
  refine ⟨fun s id u hs hu => updateArea_radius_ge s id u hs hu, ?_⟩
  intro s fresh pt d hs a ha
  unfold addAreaPoint at ha
  cases hda : s.drawingArea with
  | none =>
    rw [hda] at ha
    rcases List.mem_append.mp ha with h | h
    · exact hs a h
    · rw [List.mem_singleton.mp h]
  | some da =>
    rw [hda] at ha
    have ha' : a ∈ (updateArea da.id { radius := some (max 1 d) } s).areas := ha
    exact updateArea_radius_ge s da.id _ hs
      (Or.inr (Or.inr (Or.inr ⟨max 1 d, rfl, le_max_left _ _⟩))) a ha'

/-- Witness for the amended C3 at concrete inputs. -/
theorem area_radius_min_one_amended_witness :
    (∀ a ∈ (updateArea "A" { radius := some 2 } exampleStateC3).areas, 1 ≤ a.radius) ∧
    (∀ a ∈ (addAreaPoint "B" ⟨3, 3⟩ 0 exampleStateC3).areas, 1 ≤ a.radius) :=
  ⟨area_radius_min_one_amended.1 exampleStateC3 "A" { radius := some 2 } (by decide)
      (Or.inr (Or.inr (Or.inr ⟨2, rfl, by norm_num⟩))),
    area_radius_min_one_amended.2 exampleStateC3 "B" ⟨3, 3⟩ 0 (by decide)⟩

/-- Claim C4: linking a marker to itself leaves the model (markers, paths)
unchanged; calling `handleLinkMarkers` twice with the same pair leaves the
model exactly as after the single call; and a first successful call appends
the target id to the source marker's link list and creates exactly one
linked path seeded with both markers' current positions, inheriting the
source marker's color. -/
theorem linkMarkers_selflink_duplicate_idempotent :
    (∀ (s : EditorState) (a n : String),
        (handleLinkMarkers n a { s with linkingState := some a }).markers = s.markers ∧
        (handleLinkMarkers n a { s with linkingState := some a }).paths = s.paths) ∧
    (∀ (s : EditorState) (a b n1 n2 : String),
        (handleLinkMarkers n2 b
            { handleLinkMarkers n1 b { s with linkingState := some a } with
              linkingState := some a }).markers =
          (handleLinkMarkers n1 b { s with linkingState := some a }).markers ∧
        (handleLinkMarkers n2 b
            { handleLinkMarkers n1 b { s with linkingState := some a } with
              linkingState := some a }).paths =
          (handleLinkMarkers n1 b { s with linkingState := some a }).paths) ∧
    (∀ (s : EditorState) (a b n1 : String) (ma mb : Marker),
        a ≠ b →
        s.markers.find? (fun m => m.id = a) = some ma →
        s.markers.find? (fun m => m.id = b) = some mb →
        (ma.linkedMarkerIds.getD []).contains b = false →
        (handleLinkMarkers n1 b { s with linkingState := some a }).markers =
          (s.markers.map fun m =>
            if m.id = a then
              { m with linkedMarkerIds := some ((m.linkedMarkerIds.getD []) ++ [b]) }
            else m) ∧
        (handleLinkMarkers n1 b { s with linkingState := some a }).paths =
          s.paths ++ [⟨n1, [ma.position, mb.position], some ⟨a, b⟩, ma.color⟩]) := by
  refine ⟨?_, ?_, ?_⟩
  · intro s a n
    have h := handleLinkMarkers_noop s a a n (Or.inl rfl)
    exact ⟨h.1, h.2.1⟩
  · intro s a b n1 n2
    by_cases hab : a = b
    · subst hab
      have h := handleLinkMarkers_noop (handleLinkMarkers n1 a { s with linkingState := some a })
        a a n2 (Or.inl rfl)
      exact ⟨h.1, h.2.1⟩
    · cases hfa : s.markers.find? (fun m => m.id = a) with
      | none =>
        have h1 := handleLinkMarkers_noop s a b n1 (Or.inr (Or.inl hfa))
        have h2 := handleLinkMarkers_noop (handleLinkMarkers n1 b { s with linkingState := some a })
          a b n2 (Or.inr (Or.inl (by rw [h1.1, hfa])))
        exact ⟨h2.1, h2.2.1⟩
      | some ma =>
        cases hfb : s.markers.find? (fun m => m.id = b) with
        | none =>
          have h1 := handleLinkMarkers_noop s a b n1 (Or.inr (Or.inr (Or.inl hfb)))
          have h2 := handleLinkMarkers_noop
            (handleLinkMarkers n1 b { s with linkingState := some a }) a b n2
            (Or.inr (Or.inr (Or.inl (by rw [h1.1, hfb]))))
          exact ⟨h2.1, h2.2.1⟩
        | some mb =>
          by_cases hcon : (ma.linkedMarkerIds.getD []).contains b = true
          · have h1 := handleLinkMarkers_noop s a b n1
              (Or.inr (Or.inr (Or.inr ⟨ma, hfa, hcon⟩)))
            have h2 := handleLinkMarkers_noop
              (handleLinkMarkers n1 b { s with linkingState := some a }) a b n2
              (Or.inr (Or.inr (Or.inr ⟨ma, by rw [h1.1, hfa], hcon⟩)))
            exact ⟨h2.1, h2.2.1⟩
          · have hcon' : (ma.linkedMarkerIds.getD []).contains b = false := by
              simpa using hcon
            have hs := handleLinkMarkers_success s a b n1 ma mb hab hfa hfb hcon'
            have hmaid : ma.id = a := by
              have := List.find?_some hfa
              simpa using this
            have hfind : (handleLinkMarkers n1 b { s with linkingState := some a }).markers.find?
                (fun m => m.id = a) =
                some { ma with linkedMarkerIds := some ((ma.linkedMarkerIds.getD []) ++ [b]) } := by
              rw [hs]
              show (s.markers.map fun m =>
                if m.id = a then
                  { m with linkedMarkerIds := some ((m.linkedMarkerIds.getD []) ++ [b]) }
                else m).find? (fun m => m.id = a) = _
              rw [find?_map_preserving_id _ (linkAppend_preserves_id a b) s.markers a, hfa,
                Option.map_some']
              simp [hmaid]
            have h2 := handleLinkMarkers_noop
              (handleLinkMarkers n1 b { s with linkingState := some a }) a b n2
              (Or.inr (Or.inr (Or.inr
                ⟨{ ma with linkedMarkerIds := some ((ma.linkedMarkerIds.getD []) ++ [b]) },
                  hfind, by simp⟩)))
            exact ⟨h2.1, h2.2.1⟩
  · intro s a b n1 ma mb hab hfa hfb hcon
    have hs := handleLinkMarkers_success s a b n1 ma mb hab hfa hfb hcon
    rw [hs]
    exact ⟨rfl, rfl⟩

/-- Witness for C4 (the successful-call part) at a concrete state. -/
theorem linkMarkers_selflink_duplicate_idempotent_witness :
    (handleLinkMarkers "p1" "b" { exampleStateC4 with linkingState := some "a" }).markers =
      (exampleStateC4.markers.map fun m =>
        if m.id = "a" then
          { m with linkedMarkerIds := some ((m.linkedMarkerIds.getD []) ++ ["b"]) }
        else m) ∧
    (handleLinkMarkers "p1" "b" { exampleStateC4 with linkingState := some "a" }).paths =
      exampleStateC4.paths ++
        [⟨"p1", [⟨0, 0⟩, ⟨1, 1⟩], some ⟨"a", "b"⟩, some "#10b981"⟩] :=
  linkMarkers_selflink_duplicate_idempotent.2.2 exampleStateC4 "a" "b" "p1"
    { id := "a", name := "A", position := ⟨0, 0⟩, status := MarkerStatus.pending,
      linkedMarkerIds := some [], color := some "#10b981" }
    { id := "b", name := "B", position := ⟨1, 1⟩, status := MarkerStatus.pending }
    (by decide) (by decide) (by decide) (by decide)

/-- Claim C5: `updateArea` behaves exactly as the specification describes —
when a corner is present in the update the circle is recomputed from the
image-clamped corners (center the midpoint, radius the larger half-dimension
floored at 1) and the stored box is re-derived from that circle and
re-clamped, rather than storing the edited corners verbatim; when no corner
is present only the box is recomputed from the (possibly updated) center and
radius. -/
theorem updateArea_normalizes_box_edits (s : EditorState) (id : String) (u : AreaUpdate) :
    updateArea id u s =
      { s with areas := s.areas.map fun a =>
          if a.id = id then updateAreaSpecItem s.imageSize u a else a } := by
  unfold updateArea
  congr 1
  apply List.map_congr_left
  intro a _
  by_cases h : a.id = id <;> simp [h, updateAreaItem_eq_spec]

/-- Claim C6: a marker is visible iff its color filter entry (keyed by
`marker.color` with the default color as fallback) is not explicitly false,
and (when its area tag is non-empty) its area filter entry is not explicitly
false, and (when its number is non-empty) its number filter entry is not
explicitly false; a path with no `linkedMarkers` is always visible, and a
linked path is visible iff both endpoint markers are in the visible-marker
set. -/
theorem filter_visibility (cf af nf : String → Option Bool)
    (markers : List Marker) (paths : List Path) (m : Marker) (p : Path) :
    (m ∈ filteredMarkers cf af nf markers ↔
      m ∈ markers ∧ cf (markerColorKey m) ≠ some false ∧
      (strOr m.area "" ≠ "" → af (strOr m.area "") ≠ some false) ∧
      (strOr m.number "" ≠ "" → nf (strOr m.number "") ≠ some false)) ∧
    (p ∈ filteredPaths cf af nf markers paths ↔
      p ∈ paths ∧ (p.linkedMarkers = none ∨
        ∃ lm, p.linkedMarkers = some lm ∧
          (∃ m1 ∈ filteredMarkers cf af nf markers, m1.id = lm.startId) ∧
          (∃ m2 ∈ filteredMarkers cf af nf markers, m2.id = lm.endId))) :=
  ⟨filteredMarkers_mem_iff cf af nf markers m, filteredPaths_mem_iff cf af nf markers paths p⟩

/-- Witness for C6 at a concrete marker, path and filter assignment. -/
theorem filter_visibility_witness :
    (exampleMarkerC6 ∈
        filteredMarkers exampleColorFilter noFilter noFilter [exampleMarkerC6] ↔
      exampleMarkerC6 ∈ [exampleMarkerC6] ∧
        exampleColorFilter (markerColorKey exampleMarkerC6) ≠ some false ∧
        (strOr exampleMarkerC6.area "" ≠ "" →
          noFilter (strOr exampleMarkerC6.area "") ≠ some false) ∧
        (strOr exampleMarkerC6.number "" ≠ "" →
          noFilter (strOr exampleMarkerC6.number "") ≠ some false)) ∧
    (examplePathC6 ∈
        filteredPaths exampleColorFilter noFilter noFilter [exampleMarkerC6] [examplePathC6] ↔
      examplePathC6 ∈ [examplePathC6] ∧
        (examplePathC6.linkedMarkers = none ∨
          ∃ lm, examplePathC6.linkedMarkers = some lm ∧
            (∃ m1 ∈ filteredMarkers exampleColorFilter noFilter noFilter [exampleMarkerC6],
              m1.id = lm.startId) ∧
            (∃ m2 ∈ filteredMarkers exampleColorFilter noFilter noFilter [exampleMarkerC6],
              m2.id = lm.endId))) :=
  filter_visibility exampleColorFilter noFilter noFilter [exampleMarkerC6] [examplePathC6]
    exampleMarkerC6 examplePathC6

/-- Counterexample to claim C9 as stated: `updatePath` and `updateArea` on
an id present nowhere in the model return the state entirely unchanged and
signal nothing — the operations are total and have no error channel, exactly
as the source never throws — instead of failing fast. -/
theorem unknown_id_silently_ignored :
    updatePath "ghost" { color := some (some "red") } exampleStateC9 = exampleStateC9 ∧
    updateArea "ghost" { radius := some 7 } exampleStateC9 = exampleStateC9 := by
  exact ⟨by decide, by decide⟩

/-- Claim C9 (amended): every model operation invoked with an unknown id is
a silent no-op — it returns the state unchanged and raises no
invalid-reference condition.  For `updateMarker` the unknown id must also
not be referenced by any path link (the path re-sync runs even when no
marker matches; under the model's no-dangling-reference invariant that is
automatic). -/
theorem unknown_id_silent_noop :
    (∀ (s : EditorState) (id : String) (u : PathUpdate),
        (∀ p ∈ s.paths, p.id ≠ id) → updatePath id u s = s) ∧
    (∀ (s : EditorState) (id : String) (u : AreaUpdate),
        (∀ a ∈ s.areas, a.id ≠ id) → updateArea id u s = s) ∧
    (∀ (s : EditorState) (id : String) (u : MarkerUpdate),
        (∀ m ∈ s.markers, m.id ≠ id) →
        (∀ p ∈ s.paths, ∀ lm, p.linkedMarkers = some lm →
          lm.startId ≠ id ∧ lm.endId ≠ id) →
        updateMarker id u s = s) := by
  refine ⟨?_, ?_, ?_⟩
  · intro s id u h
    unfold updatePath
    rw [map_fix_eq _ _ (fun p hp => by simp [h p hp])]
  · intro s id u h
    unfold updateArea
    rw [map_fix_eq _ _ (fun a ha => by simp [h a ha])]
  · intro s id u hm hp
    rw [updateMarker_eq]
    have h1 : s.markers.map (fun m => if m.id = id then mergeMarker m u else m) = s.markers :=
      map_fix_eq _ _ (fun m hmem => by simp [hm m hmem])
    cases hup : u.position with
    | none => rw [h1]
    | some pos =>
      have h2 : s.paths.map (syncPathEndpoints id pos) = s.paths :=
        map_fix_eq _ _ (fun p hmem => by
          cases hplm : p.linkedMarkers with
          | none => simp [syncPathEndpoints, hplm]
          | some lm =>
            obtain ⟨hs', he'⟩ := hp p hmem lm hplm
            simp [syncPathEndpoints, hplm, hs', he'])
      rw [h1]
      show { s with paths := s.paths.map (syncPathEndpoints id pos) } = s
      rw [h2]

/-- Witness for the amended C9 at a concrete state. -/
theorem unknown_id_silent_noop_witness :
    updatePath "ghost" { points := some [⟨2, 2⟩] } exampleStateC9 = exampleStateC9 ∧
    updateArea "ghost" { name := some "X" } exampleStateC9 = exampleStateC9 ∧
    updateMarker "ghost" { position := some ⟨3, 3⟩ } exampleStateC9 = exampleStateC9 :=
  ⟨unknown_id_silent_noop.1 exampleStateC9 "ghost" { points := some [⟨2, 2⟩] } (by decide),
    unknown_id_silent_noop.2.1 exampleStateC9 "ghost" { name := some "X" } (by decide),
    unknown_id_silent_noop.2.2 exampleStateC9 "ghost" { position := some ⟨3, 3⟩ }
      (by decide) (by decide)⟩

/-- Claim C10: cancelling an in-progress freehand path — Escape or switching
the tool away from `path` — only clears the active-path id; the partially
drawn path entity, including the single-point path created by the first
path-tool click, stays in the paths collection. -/
theorem cancel_path_keeps_entity :
    (∀ s : EditorState,
        (handleEscape s).paths = s.paths ∧ (handleEscape s).drawingPathId = none) ∧
    (∀ (s : EditorState) (t : Tool),
        (setActiveTool t s).paths = s.paths ∧
        (t ≠ Tool.path → (setActiveTool t s).drawingPathId = none)) ∧
    (∀ (s : EditorState) (fid : String) (pt : Point ℚ),
        s.drawingPathId = none →
        (({ id := fid, points := [pt], color := some "#f59e0b" } : Path) ∈
            (addPathPoint fid pt s).paths ∧
          (addPathPoint fid pt s).drawingPathId = some fid) ∧
        ({ id := fid, points := [pt], color := some "#f59e0b" } : Path) ∈
          (handleEscape (addPathPoint fid pt s)).paths ∧
        (handleEscape (addPathPoint fid pt s)).drawingPathId = none ∧
        ∀ t : Tool, ({ id := fid, points := [pt], color := some "#f59e0b" } : Path) ∈
          (setActiveTool t (addPathPoint fid pt s)).paths) := by
  refine ⟨fun s => ⟨rfl, rfl⟩, fun s t => ⟨setActiveTool_paths t s,
    fun h => setActiveTool_drawingPathId_of_ne t s h⟩, ?_⟩
  intro s fid pt hdp
  have hpaths : (addPathPoint fid pt s).paths =
      s.paths ++ [{ id := fid, points := [pt], color := some "#f59e0b" }] := by
    unfold addPathPoint
    rw [hdp]
  have hmem : ({ id := fid, points := [pt], color := some "#f59e0b" } : Path) ∈
      (addPathPoint fid pt s).paths := by
    rw [hpaths]
    exact List.mem_append_right _ (List.mem_singleton_self _)
  have hdrw : (addPathPoint fid pt s).drawingPathId = some fid := by
    unfold addPathPoint
    rw [hdp]
  refine ⟨⟨hmem, hdrw⟩, hmem, rfl, ?_⟩
  intro t
  rw [List.mem_iff_get?] at hmem ⊢
  obtain ⟨n, hn⟩ := hmem
  refine ⟨n, ?_⟩
  rw [← hn]
  have := setActiveTool_paths t (addPathPoint fid pt s)
  rw [this]

/-- Witness for C10 at a concrete state. -/
theorem cancel_path_keeps_entity_witness :
    (({ id := "pN", points := [⟨4, 4⟩], color := some "#f59e0b" } : Path) ∈
        (addPathPoint "pN" ⟨4, 4⟩ exampleStateC9).paths ∧
      (addPathPoint "pN" ⟨4, 4⟩ exampleStateC9).drawingPathId = some "pN") ∧
    ({ id := "pN", points := [⟨4, 4⟩], color := some "#f59e0b" } : Path) ∈
      (handleEscape (addPathPoint "pN" ⟨4, 4⟩ exampleStateC9)).paths ∧
    (handleEscape (addPathPoint "pN" ⟨4, 4⟩ exampleStateC9)).drawingPathId = none ∧
    ∀ t : Tool, ({ id := "pN", points := [⟨4, 4⟩], color := some "#f59e0b" } : Path) ∈
      (setActiveTool t (addPathPoint "pN" ⟨4, 4⟩ exampleStateC9)).paths :=
  cancel_path_keeps_entity.2.2 exampleStateC9 "pN" ⟨4, 4⟩ rfl

/-- Claim C7: `normalizeAreas` converts a legacy polygon entry (a `points`
array with at least one valid point, not matching the circle or bounds
shapes) into a canonical area whose center is the arithmetic mean of the
valid points and whose radius is the maximum Euclidean distance from that
centroid to any of them, floored at 1, with the box recomputed from that
circle; an entry matching none of the shapes is silently dropped; and the
accumulation loop keeps converted entries and skips dropped ones. -/
theorem normalizeAreas_polygon_migration :
    (∀ (fresh : String) (e : RawAreaEntry) (rawPts : List RawPoint),
        circleData e = none → boundsData e = none → e.points = some rawPts →
        rawPts.filterMap validPoint ≠ [] →
        ∃ a : Area ℝ, normalizeAreaItem fresh e = some a ∧
          a.center = ⟨((rawPts.filterMap validPoint).map Point.x).sum /
              (rawPts.filterMap validPoint).length,
            ((rawPts.filterMap validPoint).map Point.y).sum /
              (rawPts.filterMap validPoint).length⟩ ∧
          1 ≤ a.radius ∧
          (∀ p ∈ rawPts.filterMap validPoint, distance a.center p ≤ a.radius) ∧
          (a.radius = 1 ∨ ∃ p ∈ rawPts.filterMap validPoint, a.radius = distance a.center p) ∧
          a.topLeft = (areaBoundsFromCircle a.center a.radius none).topLeft ∧
          a.bottomRight = (areaBoundsFromCircle a.center a.radius none).bottomRight) ∧
    (∀ (fresh : String) (e : RawAreaEntry),
        circleData e = none → boundsData e = none →
        (∀ l, e.points = some l → l.filterMap validPoint = []) →
        normalizeAreaItem fresh e = none) ∧
    (∀ (freshIds : ℕ → String) (e : RawAreaEntry) (rest : List RawAreaEntry),
        (∀ a, normalizeAreaItem (freshIds 0) e = some a →
          normalizeAreas freshIds (e :: rest) = a :: normalizeAreasAux freshIds 1 rest) ∧
        (normalizeAreaItem (freshIds 0) e = none →
          normalizeAreas freshIds (e :: rest) = normalizeAreasAux freshIds 1 rest)) := by
  refine ⟨?_, ?_, ?_⟩
  · intro fresh e rawPts hc hb hpts hvp
    have hrawne : rawPts ≠ [] := by
      intro h
      rw [h] at hvp
      simp at hvp
    have hrawE : rawPts.isEmpty = false := by
      cases rawPts with
      | nil => exact absurd rfl hrawne
      | cons _ _ => rfl
    have hptsE : (rawPts.filterMap validPoint).isEmpty = false := by
      cases hx : rawPts.filterMap validPoint with
      | nil => exact absurd hx hvp
      | cons _ _ => rfl
    refine ⟨polygonArea (e.id.getD fresh) (e.name.getD "Area") e.number
      (rawPts.filterMap validPoint),
      normalizeAreaItem_polygon fresh e rawPts hc hb hpts hrawE hptsE,
      rfl, le_max_left _ _, ?_, ?_, rfl, rfl⟩
    · intro p hp
      exact le_trans (le_maxList _ _ (List.mem_map_of_mem _ hp)) (le_max_right _ _)
    · rcases max_choice 1 (maxList ((rawPts.filterMap validPoint).map
        (distance ⟨((rawPts.filterMap validPoint).map Point.x).sum /
            (rawPts.filterMap validPoint).length,
          ((rawPts.filterMap validPoint).map Point.y).sum /
            (rawPts.filterMap validPoint).length⟩))) with h | h
      · exact Or.inl h
      · have hne : (rawPts.filterMap validPoint).map
            (distance ⟨((rawPts.filterMap validPoint).map Point.x).sum /
                (rawPts.filterMap validPoint).length,
              ((rawPts.filterMap validPoint).map Point.y).sum /
                (rawPts.filterMap validPoint).length⟩) ≠ [] := by
          intro hnil
          rw [List.map_eq_nil_iff] at hnil
          exact hvp hnil
        obtain ⟨p, hp, hpd⟩ := List.mem_map.mp (maxList_mem _ hne)
        exact Or.inr ⟨p, hp, h.trans hpd.symm⟩
  · intro fresh e hc hb hpv
    cases hpts : e.points with
    | none => simp [normalizeAreaItem, hc, hb, hpts]
    | some l =>
      have hl := hpv l hpts
      cases l with
      | nil => simp [normalizeAreaItem, hc, hb, hpts]
      | cons x xs => simp [normalizeAreaItem, hc, hb, hpts, hl]
  · intro freshIds e rest
    constructor
    · intro a ha
      simp [normalizeAreas, normalizeAreasAux, ha]
    · intro ha
      simp [normalizeAreas, normalizeAreasAux, ha]

/-- Witness for C7 at concrete raw entries. -/
theorem normalizeAreas_polygon_migration_witness :
    (∃ a : Area ℝ, normalizeAreaItem "f0" exampleRawPolygon = some a ∧
      a.center = ⟨((([⟨some 3, some 4⟩] : List RawPoint).filterMap validPoint).map Point.x).sum /
          (([⟨some 3, some 4⟩] : List RawPoint).filterMap validPoint).length,
        ((([⟨some 3, some 4⟩] : List RawPoint).filterMap validPoint).map Point.y).sum /
          (([⟨some 3, some 4⟩] : List RawPoint).filterMap validPoint).length⟩ ∧
      1 ≤ a.radius ∧
      (∀ p ∈ ([⟨some 3, some 4⟩] : List RawPoint).filterMap validPoint,
        distance a.center p ≤ a.radius) ∧
      (a.radius = 1 ∨ ∃ p ∈ ([⟨some 3, some 4⟩] : List RawPoint).filterMap validPoint,
        a.radius = distance a.center p) ∧
      a.topLeft = (areaBoundsFromCircle a.center a.radius none).topLeft ∧
      a.bottomRight = (areaBoundsFromCircle a.center a.radius none).bottomRight) ∧
    normalizeAreaItem "f1" exampleRawEmpty = none :=
  ⟨normalizeAreas_polygon_migration.1 "f0" exampleRawPolygon [⟨some 3, some 4⟩]
      rfl rfl rfl (by simp [validPoint]),
    normalizeAreas_polygon_migration.2.1 "f1" exampleRawEmpty rfl rfl
      (fun l hl => Option.noConfusion hl)⟩

end MapPlanner
